import Mathlib

/-
Shallow embedding of the matching-and-aggregation core of src/app.py
(Name Search Tool).

Conventions of the embedding:
* A cell decoded by pandas with dtype=str is either missing (NaN, modelled
  as `none`) or a string (`some s`).
* The tool reads each workbook twice: once with sheet_name=0, nrows=10,
  header=None for part-number extraction, and once with sheet_name=None
  (all sheets) for the cell scan, where pandas consumes the first file row
  of each sheet as the header, so `iterrows` walks the data rows only.
  A `Workbook` records the outcome of both reads; `none` models the read
  raising an exception.  `firstSheetRaw` holds the whole raw first sheet
  and the extractor applies `List.take 10`, mirroring nrows=10.
* Python regexes built by prepare_search_terms are the strings
  ".*name.*" and "(?i).*name.*".  Two such strings are equal iff their
  (name, case-insensitive-flag) components are equal (a case-sensitive
  pattern starts with '.', a case-insensitive one with '('; the rest
  determines the name), so a pattern is modelled as that pair.
* re.search(".*name.*", s) for a name that is a regex-metacharacter-free
  regex holds iff name occurs in s as a substring; the "(?i)" variant
  case-folds first.  A name whose embedding is a malformed regex makes
  re.search raise re.error at scan time; which names are malformed is a
  judgment of Python's regex grammar, passed in as the oracle `bad`.
  All concrete inputs used below involve metacharacter-free names.
* Python dicts are modelled as association lists with insert-or-overwrite
  and first-hit lookup; str.strip / str.split / str.lower are modelled
  character-list-wise with the same semantics on the inputs involved.
* Python iterates `set(all_search_names) - found_names` in an unspecified
  hash order when appending the sentinel records; the model fixes
  first-occurrence order.  No property proved below depends on the
  relative order of sentinel records for distinct names.
* pandas sort_values(kind='stable') is a stable sort by the key column;
  any stable sort is extensionally determined by (sequence, key order),
  so it is modelled by a stable insertion sort.  sort_values with
  ascending=False on the summary tables uses an unstable quicksort; the
  model again uses a stable sort, and no property proved below depends
  on the relative order of summary rows with equal counts.
-/

deriving instance DecidableEq for Except

namespace NameSearch

/-- Cell of a decoded sheet: `none` models a NaN/missing value, `some s` a
cell whose string form is `s` (dtype=str). -/
abbrev Cell := Option String

/-- Row of a decoded sheet, cells in column order. -/
abbrev Row := List Cell

/-- Sheet decoded to a 2-D grid, rows in `iterrows` order. -/
abbrev Sheet := List Row

/-- Workbook as observed through the two pandas reads the tool performs:
`firstSheetRaw` is the header=None view of the first sheet (for
extract_part_number, which applies nrows=10 itself via `take`), and
`dataSheets` the sheet_name=None view of every sheet (data rows only).
`none` models the corresponding read raising an exception. -/
structure Workbook where
  firstSheetRaw : Option (List Row)
  dataSheets : Option (List Sheet)

/-- Character-wise lower-casing, modelling the effect of Python's (?i)
regex flag on the ASCII inputs used here. -/
def lowerChars (l : List Char) : List Char := l.map Char.toLower

/-- Substring occurrence test: `occursIn p l` holds iff `p` occurs as a
contiguous run inside `l`.  Models re.search(".*p.*", l) for a
metacharacter-free `p`. -/
def occursIn (p : List Char) : List Char → Bool
  | [] => p.isEmpty
  | c :: cs => p.isPrefixOf (c :: cs) || occursIn p cs

/-- Lexicographic comparison on code points, the order Python uses to
compare strings (and hence the order pandas sorts string columns by). -/
def lexLe : List Char → List Char → Bool
  | [], _ => true
  | _ :: _, [] => false
  | a :: as, b :: bs =>
    a.toNat < b.toNat || (a.toNat == b.toNat && lexLe as bs)

/-- Python str.strip: drop leading and trailing whitespace. -/
def trimChars (l : List Char) : List Char :=
  ((l.dropWhile Char.isWhitespace).reverse.dropWhile Char.isWhitespace).reverse

/-- Suffix after the last ':', i.e. Python's cell_str.split(':')[-1]
(the whole string when no colon occurs). -/
def afterLastColon (l : List Char) : List Char :=
  (l.reverse.takeWhile (fun c => c ≠ ':')).reverse

/-- First whitespace-delimited token of a string, or "" when there is
none: Python's str.strip().split() followed by parts[0]-or-"". -/
def firstToken (l : List Char) : List Char :=
  (l.dropWhile Char.isWhitespace).takeWhile (fun c => ¬ c.isWhitespace)

/-- A compiled search pattern: the Python string ".*text.*" when
`ci = false` and "(?i).*text.*" when `ci = true`.  Equality of the pairs
coincides with equality of the pattern strings. -/
structure Pattern where
  text : String
  ci : Bool
deriving DecidableEq

/-- The literal Python pattern string this `Pattern` stands for (the
default value search_names_map.get(pattern, pattern) falls back to). -/
def Pattern.render (p : Pattern) : String :=
  if p.ci then "(?i).*" ++ p.text ++ ".*" else ".*" ++ p.text ++ ".*"

/-- Python dict assignment d[k] = v: overwrite the binding when the key is
present, append it otherwise. -/
def dictInsert (m : List (Pattern × String)) (k : Pattern) (v : String) :
    List (Pattern × String) :=
  match m with
  | [] => [(k, v)]
  | (k2, v2) :: t => if k2 = k then (k, v) :: t else (k2, v2) :: dictInsert t k v

/-- Python dict lookup d.get(k, dflt). -/
def dictGetD (m : List (Pattern × String)) (k : Pattern) (d : String) : String :=
  match m with
  | [] => d
  | (k2, v) :: t => if k2 = k then v else dictGetD t k d

/-- Loop body of prepare_search_terms: for each name append the
case-sensitive pattern then the case-insensitive one, and bind both to the
name in the map. -/
def prepare_aux : List String → List Pattern → List (Pattern × String) →
    List Pattern × List (Pattern × String)
  | [], ts, m => (ts, m)
  | n :: rest, ts, m =>
      prepare_aux rest (ts ++ [⟨n, false⟩, ⟨n, true⟩])
        (dictInsert (dictInsert m ⟨n, false⟩ n) ⟨n, true⟩ n)

/-- prepare_search_terms(names): the ordered pattern list and the
pattern-to-name map. -/
def prepare_search_terms (names : List String) :
    List Pattern × List (Pattern × String) :=
  prepare_aux names [] []

/-- One result-row dict as built by search_single_excel_file /
search_all_excel_files. -/
structure Record where
  searched_name : String
  part_number : String
  row_number : String
  matched_content : String
deriving DecidableEq

/-- The sentinel row appended for a name that produced no match. -/
def notFoundRecord (n : String) : Record :=
  { searched_name := n, part_number := "Not Found", row_number := "",
    matched_content := "" }

/-- re.search(pattern, s): raises re.error (modelled as `Except.error`)
when the name's embedding is a malformed regex, otherwise reports whether
the name occurs in `s` (case-folded under the (?i) flag). -/
def reSearch (bad : String → Bool) (p : Pattern) (s : String) :
    Except Unit Bool :=
  if bad p.text then .error ()
  else if p.ci then .ok (occursIn (lowerChars p.text.data) (lowerChars s.data))
  else .ok (occursIn p.text.data s.data)

/-- The pattern loop over one cell: test the patterns in declared order,
return the first that matches (the loop breaks there), none when all fail,
and propagate re.error from a tested malformed pattern. -/
def firstMatch (bad : String → Bool) (ts : List Pattern) (s : String) :
    Except Unit (Option Pattern) :=
  match ts with
  | [] => .ok none
  | p :: ps =>
    match reSearch bad p s with
    | .error e => .error e
    | .ok true => .ok (some p)
    | .ok false => firstMatch bad ps s

/-- Scan of the sixth raw row inside extract_part_number: first cell whose
string form contains a colon and whose trimmed after-last-colon suffix is
non-empty yields that suffix. -/
def findPartInRow : Row → Option String
  | [] => none
  | none :: cs => findPartInRow cs
  | some s :: cs =>
      if s.data.contains ':' then
        let pn := trimChars (afterLastColon s.data)
        if pn.isEmpty then findPartInRow cs else some (String.mk pn)
      else findPartInRow cs

/-- NameSearcher.extract_part_number: "Error" when the nrows=10 read
raises; otherwise "N/A" when the (at most ten) read rows number fewer
than six, else the scan of row index 5, defaulting to "N/A". -/
def extract_part_number (wb : Workbook) : String :=
  match wb.firstSheetRaw with
  | none => "Error"
  | some rows =>
      let df := rows.take 10
      if df.length > 5 then
        match findPartInRow (df.getD 5 []) with
        | some pn => pn
        | none => "N/A"
      else "N/A"

/-- NameSearcher.extract_row_number on a (non-NaN) cell string: the first
whitespace-delimited token, or "" when there is none.  The pd.isna guard
of the source is unreachable at its call site (the cell already passed
pd.notna). -/
def extract_row_number (s : String) : String :=
  String.mk (firstToken s.data)

/-- The result dict appended for a matched cell. -/
def mkRecord (m : List (Pattern × String)) (pn : String) (p : Pattern)
    (s : String) : Record :=
  { searched_name := dictGetD m p p.render,
    part_number := pn,
    row_number := extract_row_number s,
    matched_content := s }

/-- Scan of the cells of one row in column order.  The Bool is true when a
re.error aborted the scan (the exception propagates out of every loop of
search_single_excel_file); records accumulated before the abort are kept. -/
def scanCells (bad : String → Bool) (ts : List Pattern)
    (m : List (Pattern × String)) (pn : String) :
    List Cell → List Record × Bool
  | [] => ([], false)
  | none :: cs => scanCells bad ts m pn cs
  | some s :: cs =>
    match firstMatch bad ts s with
    | .error _ => ([], true)
    | .ok none => scanCells bad ts m pn cs
    | .ok (some p) =>
      let rest := scanCells bad ts m pn cs
      (mkRecord m pn p s :: rest.1, rest.2)

/-- Scan of the rows of one sheet, stopping at an aborted row. -/
def scanRows (bad : String → Bool) (ts : List Pattern)
    (m : List (Pattern × String)) (pn : String) :
    List Row → List Record × Bool
  | [] => ([], false)
  | r :: rs =>
    let h := scanCells bad ts m pn r
    if h.2 then h
    else
      let t := scanRows bad ts m pn rs
      (h.1 ++ t.1, t.2)

/-- Scan of every sheet of the workbook, stopping at an aborted sheet. -/
def scanSheets (bad : String → Bool) (ts : List Pattern)
    (m : List (Pattern × String)) (pn : String) :
    List Sheet → List Record × Bool
  | [] => ([], false)
  | sh :: shs =>
    let h := scanRows bad ts m pn sh
    if h.2 then h
    else
      let t := scanSheets bad ts m pn shs
      (h.1 ++ t.1, t.2)

/-- NameSearcher.search_single_excel_file: extract the part number (its
own exceptions are caught inside extract_part_number), decode every sheet
— a failing decode is caught and yields no records — and scan all cells,
returning whatever was accumulated when a re.error aborts the scan. -/
def search_single_excel_file (bad : String → Bool) (wb : Workbook)
    (ts : List Pattern) (m : List (Pattern × String)) : List Record :=
  match wb.dataSheets with
  | none => []
  | some sheets => (scanSheets bad ts m (extract_part_number wb) sheets).1

/-- Return value of search_all_excel_files: Python's (None, message) pair
versus (results, file_count). -/
inductive SearchOutcome where
  | failure (msg : String)
  | success (results : List Record) (fileCount : Nat)
deriving DecidableEq

/-- Concatenation of the per-workbook scan results in enumeration order. -/
def matched_records (bad : String → Bool) (ts : List Pattern)
    (m : List (Pattern × String)) (files : List Workbook) : List Record :=
  files.flatMap (fun wb => search_single_excel_file bad wb ts m)

/-- First-occurrence deduplication, the model of iterating a Python set
built from a list (set iteration order itself is unspecified). -/
def distinctFirst : List String → List String
  | [] => []
  | x :: xs => x :: (distinctFirst xs).filter (fun y => y ≠ x)

/-- set(all_search_names) - found_names, as the list of names to receive a
sentinel record. -/
def not_found_names (allNames : List String) (found : List String) :
    List String :=
  (distinctFirst allNames).filter (fun n => ¬ found.contains n)

/-- Record list produced by a run over a non-empty workbook list: all
per-workbook results in order, then one sentinel per unfound name. -/
def run_records (bad : String → Bool) (ts : List Pattern)
    (m : List (Pattern × String)) (allNames : List String)
    (files : List Workbook) : List Record :=
  let M := matched_records bad ts m files
  M ++ (not_found_names allNames (M.map (fun r => r.searched_name))).map
    notFoundRecord

/-- NameSearcher.search_all_excel_files over the enumerated workbook list
of the fixed folder. -/
def search_all_excel_files (bad : String → Bool) (folder : String)
    (files : List Workbook) (ts : List Pattern)
    (m : List (Pattern × String)) (allNames : List String) : SearchOutcome :=
  if files.isEmpty then
    .failure ("No Excel files found in '" ++ folder ++ "' folder")
  else
    .success (run_records bad ts m allNames files) files.length

/-- One row of a Summary_by_Name / Summary_by_Part sheet. -/
structure SummaryRow where
  key : String
  matchCount : Nat
deriving DecidableEq

/-- Stable insertion of `a` into `l`: before the first element `b` with
`le a b`. -/
def insertLe (le : α → α → Bool) (a : α) : List α → List α
  | [] => [a]
  | b :: l => if le a b then a :: b :: l else b :: insertLe le a l

/-- Stable insertion sort by `le`; extensionally equal to any stable sort
by the same key order, in particular pandas sort_values(kind='stable'). -/
def sortLe (le : α → α → Bool) : List α → List α
  | [] => []
  | a :: l => insertLe le a (sortLe le l)

/-- Key order of results_df.sort_values('Searched_Name'). -/
def recLe (a b : Record) : Bool :=
  lexLe a.searched_name.data b.searched_name.data

/-- Descending-count order of sort_values('Match_Count', ascending=False). -/
def countGe (a b : SummaryRow) : Bool :=
  Nat.ble b.matchCount a.matchCount

/-- results_df[results_df['Part_Number'] != 'Not Found']. -/
def found_filter (rs : List Record) : List Record :=
  rs.filter (fun r => r.part_number ≠ "Not Found")

/-- Code-point order on strings, the order pandas presents group keys in. -/
def strLexLe (a b : String) : Bool := lexLe a.data b.data

/-- groupby(key).size().reset_index(): one row per distinct key (pandas
presents groups in ascending key order) counting the records carrying it. -/
def groupbySize (key : Record → String) (rs : List Record) :
    List SummaryRow :=
  (sortLe strLexLe (distinctFirst (rs.map key))).map
    (fun k => { key := k, matchCount := (rs.filter (fun r => key r = k)).length })

/-- The sheets of the generated results workbook that carry data the
claims speak about. -/
structure ResultsExcel where
  search_results : List Record
  summary_by_name : Option (List SummaryRow)
  summary_by_part : Option (List SummaryRow)
  search_terms_sheet : List String

/-- NameSearcher.create_results_excel: the full record table stably
sorted by Searched_Name; the two summary sheets, present only when the
record list and its non-sentinel part are non-empty, grouping the
non-sentinel records by name resp. part number and ordering by descending
count; and the verbatim echo of the searched names. -/
def create_results_excel (results : List Record)
    (search_terms_display : List String) : ResultsExcel :=
  let sorted := sortLe recLe results
  let found := found_filter sorted
  { search_results := sorted,
    summary_by_name :=
      if results.length > 0 ∧ found.length > 0 then
        some (sortLe countGe (groupbySize (fun r => r.searched_name) found))
      else none,
    summary_by_part :=
      if results.length > 0 ∧ found.length > 0 then
        some (sortLe countGe (groupbySize (fun r => r.part_number) found))
      else none,
    search_terms_sheet := search_terms_display }

/-- Reformulation of the row scan of extract_part_number used to state C4:
the candidate value a single cell contributes, if any. -/
def rowCandidate (c : Cell) : Option String :=
  c.bind (fun s =>
    if s.data.contains ':' then
      let pn := trimChars (afterLastColon s.data)
      if pn.isEmpty then none else some (String.mk pn)
    else none)

/-! ### Order lemmas for `lexLe` -/

theorem lexLe_refl : ∀ l : List Char, lexLe l l = true
  | [] => rfl
  | c :: t => by simp [lexLe, lexLe_refl t]

theorem lexLe_total : ∀ a b : List Char, lexLe a b = true ∨ lexLe b a = true
  | [], _ => Or.inl rfl
  | _ :: _, [] => Or.inr rfl
  | a :: as, b :: bs => by
    rcases Nat.lt_trichotomy a.toNat b.toNat with h | h | h
    · left; simp [lexLe, h]
    · rcases lexLe_total as bs with ih | ih
      · left; simp [lexLe, h, ih]
      · right; simp [lexLe, h.symm, ih]
    · right; simp [lexLe, h]

theorem lexLe_trans :
    ∀ a b c : List Char, lexLe a b = true → lexLe b c = true →
      lexLe a c = true
  | [], _, _, _, _ => rfl
  | _ :: _, [], _, hab, _ => Bool.noConfusion hab
  | _ :: _, _ :: _, [], _, hbc => Bool.noConfusion hbc
  | a :: as, b :: bs, c :: cs, hab, hbc => by
    simp only [lexLe, Bool.or_eq_true, Bool.and_eq_true, decide_eq_true_eq,
      beq_iff_eq] at hab hbc ⊢
    rcases hab with h1 | ⟨h1, h1t⟩ <;> rcases hbc with h2 | ⟨h2, h2t⟩
    · exact Or.inl (by omega)
    · exact Or.inl (by omega)
    · exact Or.inl (by omega)
    · exact Or.inr ⟨by omega, lexLe_trans as bs cs h1t h2t⟩

theorem lexLe_ne_of_false {a b : List Char} (h : lexLe a b = false) : a ≠ b := by
  intro hab
  rw [hab, lexLe_refl] at h
  exact Bool.noConfusion h

/-! ### Generic lemmas about the stable insertion sort -/

theorem perm_insertLe (le : α → α → Bool) (a : α) :
    ∀ l : List α, List.Perm (insertLe le a l) (a :: l)
  | [] => List.Perm.refl _
  | b :: l => by
    cases hab : le a b
    · simp only [insertLe, hab, Bool.false_eq_true, if_false]
      exact ((perm_insertLe le a l).cons b).trans (List.Perm.swap a b l)
    · simp [insertLe, hab]

theorem perm_sortLe (le : α → α → Bool) :
    ∀ l : List α, List.Perm (sortLe le l) l
  | [] => List.Perm.refl _
  | x :: xs => (perm_insertLe le x (sortLe le xs)).trans
      ((perm_sortLe le xs).cons x)

theorem mem_insertLe (le : α → α → Bool) (a x : α) (l : List α) :
    x ∈ insertLe le a l ↔ x = a ∨ x ∈ l := by
  rw [(perm_insertLe le a l).mem_iff, List.mem_cons]

theorem pairwise_insertLe (le : α → α → Bool)
    (htot : ∀ x y, le x y = true ∨ le y x = true)
    (htr : ∀ x y z, le x y = true → le y z = true → le x z = true) (a : α) :
    ∀ l : List α, l.Pairwise (fun x y => le x y = true) →
      (insertLe le a l).Pairwise (fun x y => le x y = true)
  | [], _ => by simp [insertLe]
  | b :: l, hp => by
    rcases List.pairwise_cons.mp hp with ⟨hb, hl⟩
    cases hab : le a b
    · simp only [insertLe, hab, Bool.false_eq_true, if_false]
      refine List.pairwise_cons.mpr
        ⟨?_, pairwise_insertLe le htot htr a l hl⟩
      intro x hx
      rcases (mem_insertLe le a x l).mp hx with rfl | hx
      · rcases htot x b with h1 | h1
        · rw [h1] at hab; exact Bool.noConfusion hab
        · exact h1
      · exact hb x hx
    · simp only [insertLe, hab, if_true]
      refine List.pairwise_cons.mpr ⟨?_, hp⟩
      intro x hx
      rcases List.mem_cons.mp hx with rfl | hx
      · exact hab
      · exact htr a b x hab (hb x hx)

theorem pairwise_sortLe (le : α → α → Bool)
    (htot : ∀ x y, le x y = true ∨ le y x = true)
    (htr : ∀ x y z, le x y = true → le y z = true → le x z = true) :
    ∀ l : List α, (sortLe le l).Pairwise (fun x y => le x y = true)
  | [] => List.Pairwise.nil
  | x :: xs => pairwise_insertLe le htot htr x (sortLe le xs)
      (pairwise_sortLe le htot htr xs)

theorem filter_insertLe (le : α → α → Bool) (p : α → Bool) (a : α)
    (h : ∀ b, le a b = false → p a = true → p b = false) :
    ∀ l : List α, (insertLe le a l).filter p = (a :: l).filter p
  | [] => rfl
  | b :: l => by
    cases hab : le a b
    · simp only [insertLe, hab, Bool.false_eq_true, if_false]
      cases hpa : p a
      · simp [List.filter_cons, hpa, filter_insertLe le p a h l]
      · have hpb : p b = false := h b hab hpa
        simp [List.filter_cons, hpa, hpb, filter_insertLe le p a h l]
    · simp [insertLe, hab]

theorem filter_sortLe (le : α → α → Bool) (p : α → Bool)
    (h : ∀ a b, le a b = false → p a = true → p b = false) :
    ∀ l : List α, (sortLe le l).filter p = l.filter p
  | [] => rfl
  | x :: xs => by
    rw [sortLe, filter_insertLe le p x (h x)]
    simp [List.filter_cons, filter_sortLe le p h xs]

/-! ### Lemmas about the modelled dict and prepare_search_terms -/

/-- Key presence in the modelled dict. -/
def keyIn (m : List (Pattern × String)) (k : Pattern) : Prop :=
  ∃ e ∈ m, e.1 = k

theorem keyIn_dictInsert_of (k k' : Pattern) (v : String) :
    ∀ m : List (Pattern × String),
      k' = k ∨ keyIn m k' → keyIn (dictInsert m k v) k'
  | [], h => by
    rcases h with rfl | h
    · exact ⟨(k', v), List.mem_singleton.mpr rfl, rfl⟩
    · exact absurd h (by simp [keyIn])
  | (k2, v2) :: t, h => by
    by_cases hk : k2 = k
    · rw [show dictInsert ((k2, v2) :: t) k v = (k, v) :: t from by
        simp [dictInsert, hk]]
      rcases h with rfl | ⟨e, he, hek⟩
      · exact ⟨(k', v), List.mem_cons_self _ _, rfl⟩
      · rcases List.mem_cons.mp he with rfl | he
        · refine ⟨(k, v), List.mem_cons_self _ _, ?_⟩
          rw [← hk]
          exact hek
        · exact ⟨e, List.mem_cons_of_mem _ he, hek⟩
    · rw [show dictInsert ((k2, v2) :: t) k v = (k2, v2) :: dictInsert t k v
        from by simp [dictInsert, hk]]
      rcases h with hkk | ⟨e, he, hek⟩
      · rcases keyIn_dictInsert_of k k' v t (Or.inl hkk) with ⟨e2, he2, he2k⟩
        exact ⟨e2, List.mem_cons_of_mem _ he2, he2k⟩
      · rcases List.mem_cons.mp he with he1 | he2
        · exact ⟨e, by rw [he1]; exact List.mem_cons_self _ _, hek⟩
        · rcases keyIn_dictInsert_of k k' v t (Or.inr ⟨e, he2, hek⟩) with
            ⟨e2, he2, he2k⟩
          exact ⟨e2, List.mem_cons_of_mem _ he2, he2k⟩

theorem dictInsert_keyIn_self (m : List (Pattern × String)) (k : Pattern)
    (v : String) : keyIn (dictInsert m k v) k :=
  keyIn_dictInsert_of k k v m (Or.inl rfl)

theorem dictInsert_keyIn_mono (m : List (Pattern × String)) (k k' : Pattern)
    (v : String) (h : keyIn m k') : keyIn (dictInsert m k v) k' :=
  keyIn_dictInsert_of k k' v m (Or.inr h)

theorem dictInsert_shape (k : Pattern) (v : String) (hv : v = k.text) :
    ∀ m : List (Pattern × String), (∀ e ∈ m, e.2 = e.1.text) →
      ∀ e ∈ dictInsert m k v, e.2 = e.1.text
  | [], _, e, he => by
    simp only [dictInsert, List.mem_singleton] at he
    rw [he]; exact hv
  | (k2, v2) :: t, h, e, he => by
    by_cases hk : k2 = k
    · simp only [dictInsert, hk, if_true] at he
      rcases List.mem_cons.mp he with rfl | he
      · exact hv
      · exact h e (List.mem_cons_of_mem _ he)
    · simp only [dictInsert, hk, if_false] at he
      rcases List.mem_cons.mp he with rfl | he
      · exact h (k2, v2) (List.mem_cons_self _ _)
      · exact dictInsert_shape k v hv t
          (fun e2 he2 => h e2 (List.mem_cons_of_mem _ he2)) e he

theorem dictGetD_shape (k : Pattern) (d : String) :
    ∀ m : List (Pattern × String), (∀ e ∈ m, e.2 = e.1.text) → keyIn m k →
      dictGetD m k d = k.text
  | [], _, hk => absurd hk (by simp [keyIn])
  | (k2, v2) :: t, h, hk => by
    by_cases h2 : k2 = k
    · simp only [dictGetD, h2, if_true]
      have := h (k2, v2) (List.mem_cons_self _ _)
      simp only at this
      rw [this, h2]
    · simp only [dictGetD, h2, if_false]
      rcases hk with ⟨e, he, hek⟩
      rcases List.mem_cons.mp he with rfl | he
      · exact absurd hek h2
      · exact dictGetD_shape k d t
          (fun e2 he2 => h e2 (List.mem_cons_of_mem _ he2)) ⟨e, he, hek⟩

theorem prepare_aux_fst :
    ∀ (ns : List String) (ts : List Pattern) (m : List (Pattern × String)),
      (prepare_aux ns ts m).1 =
        ts ++ ns.flatMap (fun n => [⟨n, false⟩, ⟨n, true⟩])
  | [], ts, m => by simp [prepare_aux]
  | n :: rest, ts, m => by
    rw [prepare_aux, prepare_aux_fst rest]
    simp [List.flatMap_cons]

theorem prepare_aux_shape :
    ∀ (ns : List String) (ts : List Pattern) (m : List (Pattern × String)),
      (∀ e ∈ m, e.2 = e.1.text) →
      ∀ e ∈ (prepare_aux ns ts m).2, e.2 = e.1.text
  | [], ts, m, h => h
  | n :: rest, ts, m, h => by
    rw [prepare_aux]
    exact prepare_aux_shape rest _ _
      (dictInsert_shape ⟨n, true⟩ n rfl _ (dictInsert_shape ⟨n, false⟩ n rfl m h))

theorem prepare_aux_keys :
    ∀ (ns : List String) (ts : List Pattern) (m : List (Pattern × String)),
      (∀ p ∈ ts, keyIn m p) →
      ∀ p ∈ (prepare_aux ns ts m).1, keyIn (prepare_aux ns ts m).2 p
  | [], ts, m, h => h
  | n :: rest, ts, m, h => by
    rw [prepare_aux]
    refine prepare_aux_keys rest _ _ ?_
    intro p hp
    rcases List.mem_append.mp hp with hp | hp
    · exact dictInsert_keyIn_mono _ _ p _
        (dictInsert_keyIn_mono _ _ p _ (h p hp))
    · rcases List.mem_cons.mp hp with rfl | hp
      · exact dictInsert_keyIn_mono _ ⟨n, true⟩ ⟨n, false⟩ n
          (dictInsert_keyIn_self m ⟨n, false⟩ n)
      · rcases List.mem_cons.mp hp with rfl | hp
        · exact dictInsert_keyIn_self _ ⟨n, true⟩ n
        · exact absurd hp (List.not_mem_nil p)

theorem prepare_fst (names : List String) :
    (prepare_search_terms names).1 =
      names.flatMap (fun n => [⟨n, false⟩, ⟨n, true⟩]) := by
  simpa using prepare_aux_fst names [] []

theorem prepare_getD (names : List String) (p : Pattern) (d : String)
    (hp : p ∈ (prepare_search_terms names).1) :
    dictGetD (prepare_search_terms names).2 p d = p.text :=
  dictGetD_shape p d _
    (prepare_aux_shape names [] [] (by simp))
    (prepare_aux_keys names [] [] (by simp) p hp)

theorem prepare_text_mem (names : List String) (p : Pattern)
    (hp : p ∈ (prepare_search_terms names).1) : p.text ∈ names := by
  rw [prepare_fst] at hp
  rcases List.mem_flatMap.mp hp with ⟨n, hn, hpn⟩
  rcases List.mem_cons.mp hpn with rfl | hpn
  · exact hn
  · rcases List.mem_cons.mp hpn with rfl | hpn
    · exact hn
    · exact absurd hpn (List.not_mem_nil p)

/-! ### Lemmas about the cell scan -/

theorem firstMatch_spec (bad : String → Bool) :
    ∀ (ts : List Pattern) (s : String) (p : Pattern),
      firstMatch bad ts s = .ok (some p) →
      ∃ pre post, ts = pre ++ p :: post ∧ reSearch bad p s = .ok true ∧
        ∀ q ∈ pre, reSearch bad q s = .ok false
  | [], s, p, h => by simp [firstMatch] at h
  | q :: qs, s, p, h => by
    cases hq : reSearch bad q s with
    | error e => simp [firstMatch, hq] at h
    | ok b =>
      cases b
      · simp only [firstMatch, hq] at h
        rcases firstMatch_spec bad qs s p h with ⟨pre, post, hts, hm, hpre⟩
        refine ⟨q :: pre, post, by rw [List.cons_append, hts], hm, ?_⟩
        intro x hx
        rcases List.mem_cons.mp hx with rfl | hx
        · exact hq
        · exact hpre x hx
      · simp only [firstMatch, hq, Except.ok.injEq, Option.some.injEq] at h
        subst h
        exact ⟨[], qs, rfl, hq, by simp⟩

theorem scanCells_part (bad : String → Bool) (ts : List Pattern)
    (m : List (Pattern × String)) (pn : String) :
    ∀ (cs : List Cell) (r : Record),
      r ∈ (scanCells bad ts m pn cs).1 → r.part_number = pn
  | [], r, h => absurd h (List.not_mem_nil r)
  | none :: cs, r, h =>
      scanCells_part bad ts m pn cs r (by simpa [scanCells] using h)
  | some s :: cs, r, h => by
    cases hm : firstMatch bad ts s with
    | error e => simp [scanCells, hm] at h
    | ok o =>
      cases o with
      | none =>
        exact scanCells_part bad ts m pn cs r (by simpa [scanCells, hm] using h)
      | some p =>
        simp only [scanCells, hm] at h
        rcases List.mem_cons.mp h with rfl | h
        · rfl
        · exact scanCells_part bad ts m pn cs r h

theorem scanRows_part (bad : String → Bool) (ts : List Pattern)
    (m : List (Pattern × String)) (pn : String) :
    ∀ (rows : List Row) (r : Record),
      r ∈ (scanRows bad ts m pn rows).1 → r.part_number = pn
  | [], r, h => absurd h (List.not_mem_nil r)
  | row :: rows, r, h => by
    simp only [scanRows] at h
    split at h
    · exact scanCells_part bad ts m pn row r h
    · rcases List.mem_append.mp h with h | h
      · exact scanCells_part bad ts m pn row r h
      · exact scanRows_part bad ts m pn rows r h

theorem scanSheets_part (bad : String → Bool) (ts : List Pattern)
    (m : List (Pattern × String)) (pn : String) :
    ∀ (shs : List Sheet) (r : Record),
      r ∈ (scanSheets bad ts m pn shs).1 → r.part_number = pn
  | [], r, h => absurd h (List.not_mem_nil r)
  | sh :: shs, r, h => by
    simp only [scanSheets] at h
    split at h
    · exact scanRows_part bad ts m pn sh r h
    · rcases List.mem_append.mp h with h | h
      · exact scanRows_part bad ts m pn sh r h
      · exact scanSheets_part bad ts m pn shs r h

theorem search_single_part (bad : String → Bool) (wb : Workbook)
    (ts : List Pattern) (m : List (Pattern × String)) (r : Record)
    (h : r ∈ search_single_excel_file bad wb ts m) :
    r.part_number = extract_part_number wb := by
  unfold search_single_excel_file at h
  cases hds : wb.dataSheets with
  | none => rw [hds] at h; exact absurd h (List.not_mem_nil r)
  | some sheets =>
    rw [hds] at h
    exact scanSheets_part bad ts m (extract_part_number wb) sheets r h

theorem scanCells_append (bad : String → Bool) (ts : List Pattern)
    (m : List (Pattern × String)) (pn : String) :
    ∀ cs1 cs2 : List Cell,
      scanCells bad ts m pn (cs1 ++ cs2) =
        if (scanCells bad ts m pn cs1).2 then scanCells bad ts m pn cs1
        else ((scanCells bad ts m pn cs1).1 ++ (scanCells bad ts m pn cs2).1,
              (scanCells bad ts m pn cs2).2)
  | [], cs2 => by simp [scanCells]
  | none :: cs1, cs2 => by
    simpa [scanCells] using scanCells_append bad ts m pn cs1 cs2
  | some s :: cs1, cs2 => by
    cases hm : firstMatch bad ts s with
    | error e => simp [scanCells, hm]
    | ok o =>
      cases o with
      | none => simpa [scanCells, hm] using scanCells_append bad ts m pn cs1 cs2
      | some p =>
        simp only [List.cons_append, scanCells, hm, List.append_eq]
        rw [scanCells_append bad ts m pn cs1 cs2]
        cases hb : (scanCells bad ts m pn cs1).2
        · simp [hb]
        · simp [hb]

/-! ### Lemmas about the aggregation -/

theorem mem_distinctFirst :
    ∀ (l : List String) (x : String), x ∈ distinctFirst l ↔ x ∈ l
  | [], x => Iff.rfl
  | y :: ys, x => by
    simp only [distinctFirst, List.mem_cons, List.mem_filter,
      decide_eq_true_eq]
    by_cases hxy : x = y
    · simp [hxy]
    · simp [hxy, mem_distinctFirst ys x]

theorem nodup_distinctFirst : ∀ l : List String, (distinctFirst l).Nodup
  | [] => List.nodup_nil
  | y :: ys => by
    refine List.nodup_cons.mpr ⟨?_, (nodup_distinctFirst ys).filter _⟩
    intro hy
    have := (List.mem_filter.mp hy).2
    simp at this

theorem mem_not_found_names (allNames found : List String) (n : String) :
    n ∈ not_found_names allNames found ↔ n ∈ allNames ∧ ¬ n ∈ found := by
  simp [not_found_names, List.mem_filter, mem_distinctFirst]

theorem count_not_found_names (allNames found : List String) (n : String)
    (h : n ∈ allNames) (hn : ¬ n ∈ found) :
    (not_found_names allNames found).count n = 1 :=
  List.count_eq_one_of_mem ((nodup_distinctFirst allNames).filter _)
    ((mem_not_found_names allNames found n).mpr ⟨h, hn⟩)

theorem run_records_accounts (bad : String → Bool) (ts : List Pattern)
    (m : List (Pattern × String)) (allNames : List String)
    (files : List Workbook) (n : String) (hn : n ∈ allNames) :
    ∃ r ∈ run_records bad ts m allNames files, r.searched_name = n := by
  by_cases hf :
      n ∈ (matched_records bad ts m files).map (fun r => r.searched_name)
  · rcases List.mem_map.mp hf with ⟨r, hr, hrn⟩
    exact ⟨r, List.mem_append.mpr (Or.inl hr), hrn⟩
  · refine ⟨notFoundRecord n, List.mem_append.mpr (Or.inr ?_), rfl⟩
    exact List.mem_map_of_mem notFoundRecord
      ((mem_not_found_names _ _ n).mpr ⟨hn, hf⟩)

theorem matched_not_in_sentinels (bad : String → Bool) (ts : List Pattern)
    (m : List (Pattern × String)) (allNames : List String)
    (files : List Workbook) (r : Record)
    (hr : r ∈ matched_records bad ts m files) :
    ¬ r.searched_name ∈ not_found_names allNames
        ((matched_records bad ts m files).map (fun x => x.searched_name)) := by
  intro h
  exact ((mem_not_found_names _ _ _).mp h).2
    (List.mem_map_of_mem (fun x => x.searched_name) hr)

theorem matched_records_skip (bad : String → Bool) (ts : List Pattern)
    (m : List (Pattern × String)) (pre post : List Workbook) (wbBad : Workbook)
    (h : search_single_excel_file bad wbBad ts m = []) :
    matched_records bad ts m (pre ++ wbBad :: post) =
      matched_records bad ts m (pre ++ post) := by
  simp [matched_records, List.flatMap_append, List.flatMap_cons, h]

theorem matched_records_nil (bad : String → Bool) (ts : List Pattern)
    (m : List (Pattern × String)) (files : List Workbook)
    (h : ∀ wb ∈ files, search_single_excel_file bad wb ts m = []) :
    matched_records bad ts m files = [] :=
  List.flatMap_eq_nil_iff.mpr h

theorem prepare_length (names : List String) :
    (prepare_search_terms names).1.length = 2 * names.length := by
  rw [prepare_fst names]
  induction names with
  | nil => rfl
  | cons n rest ih =>
    simp only [List.flatMap_cons, List.length_append, List.length_cons,
      List.length_nil, ih]
    omega

theorem findPartInRow_eq (row : Row) :
    findPartInRow row = row.findSome? rowCandidate := by
  induction row with
  | nil => rfl
  | cons c cs ih =>
    cases c with
    | none => simpa [findPartInRow, List.findSome?_cons, rowCandidate] using ih
    | some s =>
      by_cases hc : ':' ∈ s.data
      · by_cases he : trimChars (afterLastColon s.data) = []
        · simpa [findPartInRow, List.findSome?_cons, rowCandidate, hc, he]
            using ih
        · simp [findPartInRow, List.findSome?_cons, rowCandidate, hc, he]
      · simpa [findPartInRow, List.findSome?_cons, rowCandidate, hc] using ih

theorem countGe_total (x y : SummaryRow) :
    countGe x y = true ∨ countGe y x = true := by
  simp only [countGe, Nat.ble_eq]
  omega

theorem countGe_trans (x y z : SummaryRow) (h1 : countGe x y = true)
    (h2 : countGe y z = true) : countGe x z = true := by
  simp only [countGe, Nat.ble_eq] at h1 h2 ⊢
  omega

theorem summary_rows (key : Record → String) (rs : List Record)
    (row : SummaryRow) (h : row ∈ sortLe countGe (groupbySize key rs)) :
    row.matchCount = (rs.filter (fun r => key r = row.key)).length ∧
      ∃ r ∈ rs, key r = row.key := by
  have h2 : row ∈ groupbySize key rs :=
    (perm_sortLe countGe (groupbySize key rs)).mem_iff.mp h
  rcases List.mem_map.mp h2 with ⟨k, hk, hrow⟩
  have hkey : row.key = k := by rw [← hrow]
  have hcnt : row.matchCount = (rs.filter (fun r => key r = k)).length := by
    rw [← hrow]
  refine ⟨by rw [hcnt, hkey], ?_⟩
  have hk2 : k ∈ distinctFirst (rs.map key) :=
    (perm_sortLe strLexLe _).mem_iff.mp hk
  rcases List.mem_map.mp ((mem_distinctFirst _ k).mp hk2) with ⟨r, hr, hrk⟩
  exact ⟨r, hr, by rw [hrk, hkey]⟩

theorem summary_keys (key : Record → String) (rs : List Record) (k : String) :
    (∃ row ∈ sortLe countGe (groupbySize key rs), row.key = k) ↔
      ∃ r ∈ rs, key r = k := by
  constructor
  · rintro ⟨row, hrow, rfl⟩
    exact (summary_rows key rs row hrow).2
  · rintro ⟨r, hr, hrk⟩
    have hk : k ∈ sortLe strLexLe (distinctFirst (rs.map key)) :=
      (perm_sortLe strLexLe _).mem_iff.mpr
        ((mem_distinctFirst _ k).mpr (List.mem_map.mpr ⟨r, hr, hrk⟩))
    refine ⟨⟨k, (rs.filter (fun r => key r = k)).length⟩, ?_, rfl⟩
    exact (perm_sortLe countGe (groupbySize key rs)).mem_iff.mpr
      (List.mem_map.mpr ⟨k, hk, rfl⟩)

theorem summary_pairwise (key : Record → String) (rs : List Record) :
    (sortLe countGe (groupbySize key rs)).Pairwise
      (fun a b => b.matchCount ≤ a.matchCount) :=
  (pairwise_sortLe countGe countGe_total countGe_trans
      (groupbySize key rs)).imp
    (fun h => by simpa [countGe, Nat.ble_eq] using h)

/-! ### The claims -/

/-- C5: prepare_search_terms turns any name list of length N into exactly 2N
patterns in order — for each name the case-sensitive pattern first, then its
case-insensitive variant, duplicates included — together with a map sending
each produced pattern back to its originating name. -/
theorem c5_pattern_compiler (names : List String) :
    (prepare_search_terms names).1 =
        names.flatMap (fun n => [⟨n, false⟩, ⟨n, true⟩]) ∧
    (prepare_search_terms names).1.length = 2 * names.length ∧
    ∀ p ∈ (prepare_search_terms names).1,
      dictGetD (prepare_search_terms names).2 p p.render = p.text ∧
        p.text ∈ names := by
  refine ⟨prepare_fst names, prepare_length names, ?_⟩
  intro p hp
  exact ⟨prepare_getD names p p.render hp, prepare_text_mem names p hp⟩

theorem c5_pattern_compiler_witness :
    (prepare_search_terms ["Patel", "Shah", "Patel"]).1.length = 6 ∧
    dictGetD (prepare_search_terms ["Patel", "Shah", "Patel"]).2
        ⟨"Shah", true⟩ (Pattern.render ⟨"Shah", true⟩) = "Shah" :=
  ⟨(c5_pattern_compiler ["Patel", "Shah", "Patel"]).2.1,
   ((c5_pattern_compiler ["Patel", "Shah", "Patel"]).2.2 ⟨"Shah", true⟩
      (by decide)).1⟩

/-- C2: for a non-empty cell the scanner tests the compiled patterns in
declared order and emits at most one record for the cell — exactly one
record attributed, via the map, to the name of the first matching pattern
when some pattern matches, and none otherwise; concretely, a cell "PATEL"
under search name "Patel" fails the case-sensitive pattern, matches the
case-insensitive one, and yields exactly one record for "Patel". -/
theorem c2_first_match_single_record (names : List String)
    (bad : String → Bool) (pn s : String) (cs : List Cell) :
    (∀ p : Pattern,
      firstMatch bad (prepare_search_terms names).1 s = .ok (some p) →
      scanCells bad (prepare_search_terms names).1
          (prepare_search_terms names).2 pn (some s :: cs) =
        (mkRecord (prepare_search_terms names).2 pn p s ::
            (scanCells bad (prepare_search_terms names).1
              (prepare_search_terms names).2 pn cs).1,
         (scanCells bad (prepare_search_terms names).1
            (prepare_search_terms names).2 pn cs).2) ∧
      (mkRecord (prepare_search_terms names).2 pn p s).searched_name =
        p.text ∧
      p.text ∈ names ∧
      (∃ pre post, (prepare_search_terms names).1 = pre ++ p :: post ∧
        reSearch bad p s = .ok true ∧
        ∀ q ∈ pre, reSearch bad q s = .ok false)) ∧
    (firstMatch bad (prepare_search_terms names).1 s = .ok none →
      scanCells bad (prepare_search_terms names).1
          (prepare_search_terms names).2 pn (some s :: cs) =
        scanCells bad (prepare_search_terms names).1
          (prepare_search_terms names).2 pn cs) ∧
    (scanCells (fun _ => false) (prepare_search_terms ["Patel"]).1
        (prepare_search_terms ["Patel"]).2 pn [some "PATEL"] =
      ([⟨"Patel", pn, "PATEL", "PATEL"⟩], false) ∧
     reSearch (fun _ => false) ⟨"Patel", false⟩ "PATEL" = .ok false ∧
     reSearch (fun _ => false) ⟨"Patel", true⟩ "PATEL" = .ok true) := by
  refine ⟨?_, ?_, ?_, by decide, by decide⟩
  · intro p hp
    rcases firstMatch_spec bad _ s p hp with ⟨pre, post, hts, hm, hpre⟩
    have hpmem : p ∈ (prepare_search_terms names).1 := by
      rw [hts]
      exact List.mem_append.mpr (Or.inr (List.mem_cons_self _ _))
    refine ⟨by simp [scanCells, hp], ?_, prepare_text_mem names p hpmem,
      pre, post, hts, hm, hpre⟩
    exact prepare_getD names p (Pattern.render p) hpmem
  · intro h
    simp [scanCells, h]
  · have hfm : firstMatch (fun _ => false) (prepare_search_terms ["Patel"]).1
        "PATEL" = .ok (some ⟨"Patel", true⟩) := by decide
    have h1 : dictGetD (prepare_search_terms ["Patel"]).2 ⟨"Patel", true⟩
        (Pattern.render ⟨"Patel", true⟩) = "Patel" := by decide
    have h2 : extract_row_number "PATEL" = "PATEL" := by decide
    simp [scanCells, hfm, mkRecord, h1, h2]

theorem c2_first_match_single_record_witness :
    scanCells (fun _ => false) (prepare_search_terms ["Patel"]).1
        (prepare_search_terms ["Patel"]).2 "P1" [some "PATEL"] =
      ([⟨"Patel", "P1", "PATEL", "PATEL"⟩], false) ∧
    (mkRecord (prepare_search_terms ["Patel"]).2 "P1" ⟨"Patel", true⟩
        "PATEL").searched_name = "Patel" :=
  ⟨(c2_first_match_single_record ["Patel"] (fun _ => false) "P1" "PATEL"
      []).2.2.1,
   ((c2_first_match_single_record ["Patel"] (fun _ => false) "P1" "PATEL"
      []).1 ⟨"Patel", true⟩ (by decide)).2.1⟩

/-- C4: extract_part_number depends only on the first ten raw rows of the
first sheet: it returns "Error" when that read fails, "N/A" when fewer than
six rows are present, and otherwise scans row index 5 left to right for the
first colon-bearing cell whose trimmed after-last-colon substring is
non-empty, returning that substring, or "N/A" when no cell yields one; a
sixth-row cell "Part: 12" yields "12". -/
theorem c4_part_number_extraction :
    (∀ wb : Workbook, wb.firstSheetRaw = none →
      extract_part_number wb = "Error") ∧
    (∀ (rows1 rows2 : List Row) (d1 d2 : Option (List Sheet)),
      rows1.take 10 = rows2.take 10 →
      extract_part_number ⟨some rows1, d1⟩ =
        extract_part_number ⟨some rows2, d2⟩) ∧
    (∀ (rows : List Row) (d : Option (List Sheet)), rows.length < 6 →
      extract_part_number ⟨some rows, d⟩ = "N/A") ∧
    (∀ (rows : List Row) (d : Option (List Sheet)), 5 < rows.length →
      extract_part_number ⟨some rows, d⟩ =
        ((rows.getD 5 []).findSome? rowCandidate).getD "N/A") ∧
    extract_part_number
        ⟨some [[], [], [], [], [], [some "Part: 12"]], none⟩ = "12" := by
  refine ⟨?_, ?_, ?_, ?_, by decide⟩
  · intro wb h
    simp [extract_part_number, h]
  · intro rows1 rows2 d1 d2 h
    simp only [extract_part_number]
    rw [h]
  · intro rows d h
    have hlen : ¬ (rows.take 10).length > 5 := by
      rw [List.length_take]
      omega
    simp only [extract_part_number]
    rw [if_neg hlen]
  · intro rows d h
    have hlen : (rows.take 10).length > 5 := by
      rw [List.length_take]
      omega
    have hget : (rows.take 10).getD 5 [] = rows.getD 5 [] := by
      rw [List.getD_eq_getElem?_getD, List.getD_eq_getElem?_getD,
        List.getElem?_take, if_pos (by omega)]
    simp only [extract_part_number]
    rw [if_pos hlen, hget, findPartInRow_eq]
    cases (rows.getD 5 []).findSome? rowCandidate with
    | none => rfl
    | some a => rfl

theorem c4_part_number_extraction_witness :
    extract_part_number ⟨none, none⟩ = "Error" ∧
    extract_part_number ⟨some [[], []], none⟩ = "N/A" ∧
    extract_part_number
        ⟨some [[], [], [], [], [], [some "Part: 12"]], none⟩ = "12" :=
  ⟨c4_part_number_extraction.1 ⟨none, none⟩ rfl,
   c4_part_number_extraction.2.2.1 [[], []] none (by decide),
   c4_part_number_extraction.2.2.2.2⟩

/-- C6: the Search_Results table is the aggregated record sequence sorted by
Searched_Name with a stable sort — a permutation of the input, weakly sorted
under the code-point order on names, in which records sharing a name keep
exactly the relative order in which they were emitted. -/
theorem c6_stable_sort_by_name (results : List Record)
    (display : List String) :
    List.Perm (create_results_excel results display).search_results results ∧
    (create_results_excel results display).search_results.Pairwise
      (fun a b => lexLe a.searched_name.data b.searched_name.data = true) ∧
    ∀ n : String,
      (create_results_excel results display).search_results.filter
          (fun r => r.searched_name = n) =
        results.filter (fun r => r.searched_name = n) := by
  refine ⟨perm_sortLe recLe results,
    pairwise_sortLe recLe (fun x y => lexLe_total _ _)
      (fun x y z => lexLe_trans _ _ _) results, ?_⟩
  intro n
  refine filter_sortLe recLe _ ?_ results
  intro a b hab hpa
  have ha : a.searched_name = n := by simpa using hpa
  have hne : a.searched_name.data ≠ b.searched_name.data :=
    lexLe_ne_of_false hab
  simp only [decide_eq_false_iff_not]
  intro hb
  exact hne (by rw [ha, hb])

/-- C7: each summary sheet, when produced, has one row per key occurring
among the records whose part number differs from the sentinel "Not Found",
counting exactly those records — keyed by Searched_Name for the by-name
sheet and by the part-number string for the by-part sheet — and its rows are
ordered by weakly descending count. -/
theorem c7_summaries (results : List Record) (display : List String)
    (tblN tblP : List SummaryRow)
    (hN : (create_results_excel results display).summary_by_name = some tblN)
    (hP : (create_results_excel results display).summary_by_part = some tblP) :
    (∀ row ∈ tblN, row.matchCount =
        ((found_filter results).filter
          (fun r => r.searched_name = row.key)).length) ∧
    (∀ k : String, (∃ row ∈ tblN, row.key = k) ↔
        ∃ r ∈ found_filter results, r.searched_name = k) ∧
    tblN.Pairwise (fun a b => b.matchCount ≤ a.matchCount) ∧
    (∀ row ∈ tblP, row.matchCount =
        ((found_filter results).filter
          (fun r => r.part_number = row.key)).length) ∧
    (∀ k : String, (∃ row ∈ tblP, row.key = k) ↔
        ∃ r ∈ found_filter results, r.part_number = k) ∧
    tblP.Pairwise (fun a b => b.matchCount ≤ a.matchCount) := by
  have hperm : List.Perm (found_filter (sortLe recLe results))
      (found_filter results) := (perm_sortLe recLe results).filter _
  simp only [create_results_excel] at hN hP
  split at hN
  case isFalse => exact absurd hN (by simp)
  case isTrue hcond =>
    rw [Option.some.injEq] at hN
    split at hP
    case isFalse => contradiction
    case isTrue =>
      rw [Option.some.injEq] at hP
      subst hN
      subst hP
      refine ⟨?_, ?_, summary_pairwise _ _, ?_, ?_, summary_pairwise _ _⟩
      · intro row hrow
        rw [(summary_rows (fun r => r.searched_name) _ row hrow).1]
        exact (hperm.filter _).length_eq
      · intro k
        rw [summary_keys (fun r => r.searched_name) _ k]
        constructor
        · rintro ⟨r, hr, hk⟩
          exact ⟨r, hperm.mem_iff.mp hr, hk⟩
        · rintro ⟨r, hr, hk⟩
          exact ⟨r, hperm.mem_iff.mpr hr, hk⟩
      · intro row hrow
        rw [(summary_rows (fun r => r.part_number) _ row hrow).1]
        exact (hperm.filter _).length_eq
      · intro k
        rw [summary_keys (fun r => r.part_number) _ k]
        constructor
        · rintro ⟨r, hr, hk⟩
          exact ⟨r, hperm.mem_iff.mp hr, hk⟩
        · rintro ⟨r, hr, hk⟩
          exact ⟨r, hperm.mem_iff.mpr hr, hk⟩

theorem c7_summaries_witness :
    (create_results_excel
        [⟨"A", "P1", "1", "x"⟩, ⟨"A", "P1", "2", "y"⟩,
         ⟨"B", "Not Found", "", ""⟩] []).summary_by_name =
      some [⟨"A", 2⟩] ∧
    (⟨"A", 2⟩ : SummaryRow).matchCount =
      ((found_filter
          [⟨"A", "P1", "1", "x"⟩, ⟨"A", "P1", "2", "y"⟩,
           ⟨"B", "Not Found", "", ""⟩]).filter
        (fun r => r.searched_name = (⟨"A", 2⟩ : SummaryRow).key)).length :=
  ⟨by decide,
   (c7_summaries
      [⟨"A", "P1", "1", "x"⟩, ⟨"A", "P1", "2", "y"⟩,
       ⟨"B", "Not Found", "", ""⟩] [] [⟨"A", 2⟩] [⟨"P1", 2⟩]
      (by decide) (by decide)).1 ⟨"A", 2⟩ (by decide)⟩

/-- C1 fails as stated: with one workbook whose sixth raw row reads
"Status: Not Found", the extracted part number is the literal string
"Not Found"; the name "Alice" is matched once, so no sentinel record is
appended for it, yet its only record carries the sentinel part-number
string and is not NotFoundRecord-shaped — so "Alice" has neither a record
with part number ≠ "Not Found" nor exactly one NotFoundRecord. -/
theorem c1_counterexample :
    search_all_excel_files (fun _ => false) "excel_output"
        [⟨some [[some "H"], [some "Alice"], [], [], [],
            [some "Status: Not Found"]],
          some [[[some "Alice"], [], [], [], [some "Status: Not Found"]]]⟩]
        (prepare_search_terms ["Alice"]).1 (prepare_search_terms ["Alice"]).2
        ["Alice"] =
      .success [⟨"Alice", "Not Found", "Alice", "Alice"⟩] 1 ∧
    ¬ ((∃ r ∈ [(⟨"Alice", "Not Found", "Alice", "Alice"⟩ : Record)],
          r.searched_name = "Alice" ∧ r.part_number ≠ "Not Found") ∨
       (List.filter (fun r => r = notFoundRecord "Alice")
          [(⟨"Alice", "Not Found", "Alice", "Alice"⟩ : Record)]).length = 1)
    := by
  exact ⟨by decide, by decide⟩

/-- C1 (amended): over a non-empty workbook collection the run returns the
scanner-emitted records followed by the sentinel records, and each supplied
name either produced at least one scanner record — and then receives no
sentinel — or produced none — and then receives exactly one sentinel; when
additionally no workbook's extracted part number equals the literal
"Not Found", every scanner-emitted record carries a part number different
from "Not Found", recovering the spec's partition by part-number field. -/
theorem c1_name_accounting (bad : String → Bool) (folder : String)
    (files : List Workbook) (ts : List Pattern) (m : List (Pattern × String))
    (names : List String) (hne : files ≠ []) (n : String) (hn : n ∈ names) :
    search_all_excel_files bad folder files ts m names =
      .success (run_records bad ts m names files) files.length ∧
    (∃ r ∈ run_records bad ts m names files, r.searched_name = n) ∧
    ((∃ r ∈ matched_records bad ts m files, r.searched_name = n) →
      ¬ n ∈ not_found_names names
          ((matched_records bad ts m files).map (fun r => r.searched_name))) ∧
    ((¬ ∃ r ∈ matched_records bad ts m files, r.searched_name = n) →
      (not_found_names names
          ((matched_records bad ts m files).map
            (fun r => r.searched_name))).count n = 1) ∧
    ((∀ wb ∈ files, extract_part_number wb ≠ "Not Found") →
      ∀ r ∈ matched_records bad ts m files, r.part_number ≠ "Not Found")
    := by
  have hE : files.isEmpty = false := by
    cases files with
    | nil => exact absurd rfl hne
    | cons a t => rfl
  refine ⟨by simp [search_all_excel_files, hE],
    run_records_accounts bad ts m names files n hn, ?_, ?_, ?_⟩
  · rintro ⟨r, hr, hrn⟩ hmem
    exact ((mem_not_found_names _ _ _).mp hmem).2
      (List.mem_map.mpr ⟨r, hr, hrn⟩)
  · intro h
    refine count_not_found_names names _ n hn ?_
    intro hc
    rcases List.mem_map.mp hc with ⟨r, hr, hrn⟩
    exact h ⟨r, hr, hrn⟩
  · intro h r hr
    rcases List.mem_flatMap.mp hr with ⟨wb, hwb, hrwb⟩
    rw [search_single_part bad wb ts m r hrwb]
    exact h wb hwb

theorem c1_name_accounting_witness :
    search_all_excel_files (fun _ => false) "excel_output" [⟨none, none⟩]
        [] [] ["A"] =
      .success (run_records (fun _ => false) [] [] ["A"] [⟨none, none⟩]) 1 ∧
    ∃ r ∈ run_records (fun _ => false) [] [] ["A"] [⟨none, none⟩],
      r.searched_name = "A" :=
  ⟨(c1_name_accounting (fun _ => false) "excel_output" [⟨none, none⟩] [] []
      ["A"] (List.cons_ne_nil _ _) "A" (by decide)).1,
   (c1_name_accounting (fun _ => false) "excel_output" [⟨none, none⟩] [] []
      ["A"] (List.cons_ne_nil _ _) "A" (by decide)).2.1⟩

/-- C3: a workbook whose decode fails contributes zero records and is
skipped: the run over the collection with the failed workbook returns
exactly the records of the run without it (while still counting the file),
and every requested name is accounted for by a record carrying it — a match
or a sentinel — no matter how many workbooks fail. -/
theorem c3_unreadable_workbook_isolated (bad : String → Bool)
    (folder : String) (pre post : List Workbook) (wbBad : Workbook)
    (ts : List Pattern) (m : List (Pattern × String)) (names : List String)
    (hbad : wbBad.dataSheets = none) :
    search_single_excel_file bad wbBad ts m = [] ∧
    search_all_excel_files bad folder (pre ++ wbBad :: post) ts m names =
      .success (run_records bad ts m names (pre ++ post))
        (pre.length + post.length + 1) ∧
    ∀ n ∈ names, ∃ r ∈ run_records bad ts m names (pre ++ post),
      r.searched_name = n := by
  have h1 : search_single_excel_file bad wbBad ts m = [] := by
    simp [search_single_excel_file, hbad]
  have hE : (pre ++ wbBad :: post).isEmpty = false := by
    cases pre <;> rfl
  have h2 : run_records bad ts m names (pre ++ wbBad :: post) =
      run_records bad ts m names (pre ++ post) := by
    unfold run_records
    rw [matched_records_skip bad ts m pre post wbBad h1]
  refine ⟨h1, ?_, fun n hn => run_records_accounts bad ts m names
    (pre ++ post) n hn⟩
  simp only [search_all_excel_files, hE, Bool.false_eq_true, if_false]
  rw [h2]
  congr 1
  simp [List.length_append]
  omega

theorem c3_unreadable_workbook_isolated_witness :
    search_single_excel_file (fun _ => false) ⟨none, none⟩ [] [] = [] ∧
    search_all_excel_files (fun _ => false) "excel_output" [⟨none, none⟩]
        [] [] ["A"] =
      .success (run_records (fun _ => false) [] [] ["A"] []) 1 :=
  ⟨(c3_unreadable_workbook_isolated (fun _ => false) "excel_output" [] []
      ⟨none, none⟩ [] [] ["A"] rfl).1,
   (c3_unreadable_workbook_isolated (fun _ => false) "excel_output" [] []
      ⟨none, none⟩ [] [] ["A"] rfl).2.1⟩

/-- C9: an empty workbook collection produces the distinct failure value
carrying the "No Excel files found" message rather than an empty record
list, while a non-empty collection in which every workbook yields zero
matches still returns a success whose record list holds exactly one
sentinel record per distinct requested name. -/
theorem c9_no_workbooks_distinct (bad : String → Bool) (folder : String)
    (files : List Workbook) (ts : List Pattern) (m : List (Pattern × String))
    (names : List String) :
    search_all_excel_files bad folder [] ts m names =
      .failure ("No Excel files found in '" ++ folder ++ "' folder") ∧
    (files ≠ [] → (∀ wb ∈ files, search_single_excel_file bad wb ts m = []) →
      search_all_excel_files bad folder files ts m names =
        .success ((distinctFirst names).map notFoundRecord) files.length)
    := by
  refine ⟨rfl, ?_⟩
  intro hne hall
  have hE : files.isEmpty = false := by
    cases files with
    | nil => exact absurd rfl hne
    | cons a t => rfl
  simp only [search_all_excel_files, hE, Bool.false_eq_true, if_false]
  unfold run_records
  rw [matched_records_nil bad ts m files hall]
  simp [not_found_names]

theorem c9_no_workbooks_distinct_witness :
    search_all_excel_files (fun _ => false) "excel_output" [] [] [] ["A"] =
      .failure "No Excel files found in 'excel_output' folder" ∧
    search_all_excel_files (fun _ => false) "excel_output" [⟨none, none⟩]
        [] [] ["A", "A", "B"] =
      .success ((distinctFirst ["A", "A", "B"]).map notFoundRecord) 1 :=
  ⟨(c9_no_workbooks_distinct (fun _ => false) "excel_output" [] [] []
      ["A"]).1,
   (c9_no_workbooks_distinct (fun _ => false) "excel_output" [⟨none, none⟩]
      [] [] ["A", "A", "B"]).2 (List.cons_ne_nil _ _) (by decide)⟩

/-- C8 fails as stated: with names ["Alice", "(", "Bob"] — the middle one a
malformed regex — and one workbook whose single row holds the cells "Alice"
then "Bob", the cell "Alice" is recorded, but testing the malformed pattern
on the cell "Bob" raises and aborts the rest of the workbook's scan, so no
record is produced for "Bob" even though Bob's own pattern matches that
cell: the failure is not isolated to the cells the malformed pattern would
have been tested against. -/
theorem c8_counterexample :
    search_single_excel_file (fun t => t == "(")
        ⟨some [[some "H1", some "H2"], [some "Alice", some "Bob"]],
          some [[[some "Alice", some "Bob"]]]⟩
        (prepare_search_terms ["Alice", "(", "Bob"]).1
        (prepare_search_terms ["Alice", "(", "Bob"]).2 =
      [⟨"Alice", "N/A", "Alice", "Alice"⟩] ∧
    reSearch (fun t => t == "(") ⟨"Bob", false⟩ "Bob" = .ok true ∧
    ¬ ∃ r ∈ search_single_excel_file (fun t => t == "(")
        ⟨some [[some "H1", some "H2"], [some "Alice", some "Bob"]],
          some [[[some "Alice", some "Bob"]]]⟩
        (prepare_search_terms ["Alice", "(", "Bob"]).1
        (prepare_search_terms ["Alice", "(", "Bob"]).2,
      r.searched_name = "Bob" := by
  exact ⟨by decide, by decide, by decide⟩

/-- C8 (amended): no pattern is compiled at preparation time — the compiler
is total and yields two patterns per name even for malformed ones — and a
malformed pattern fails at scan time with the failure caught per workbook:
the cell scan stops at the first non-empty cell on which a tested pattern
raises, keeping the records emitted before that cell and dropping the rest
of that workbook's scan, while every other workbook's contribution is
computed independently and is unaffected. -/
theorem c8_scan_time_failure (bad : String → Bool) (names : List String)
    (ts : List Pattern) (m : List (Pattern × String)) (pn s : String)
    (cs1 cs2 : List Cell) (pre post : List Workbook) (wb : Workbook) :
    (prepare_search_terms names).1.length = 2 * names.length ∧
    (firstMatch bad ts s = .error () →
      scanCells bad ts m pn (some s :: cs2) = ([], true)) ∧
    scanCells bad ts m pn (cs1 ++ cs2) =
      (if (scanCells bad ts m pn cs1).2 then scanCells bad ts m pn cs1
       else ((scanCells bad ts m pn cs1).1 ++ (scanCells bad ts m pn cs2).1,
             (scanCells bad ts m pn cs2).2)) ∧
    matched_records bad ts m (pre ++ wb :: post) =
      matched_records bad ts m pre ++ search_single_excel_file bad wb ts m ++
        matched_records bad ts m post := by
  refine ⟨prepare_length names, ?_, scanCells_append bad ts m pn cs1 cs2, ?_⟩
  · intro h
    simp [scanCells, h]
  · simp [matched_records, List.flatMap_append, List.flatMap_cons,
      List.append_assoc]

theorem c8_scan_time_failure_witness :
    (prepare_search_terms ["Alice", "(", "Bob"]).1.length = 6 ∧
    scanCells (fun t => t == "(")
        (prepare_search_terms ["Alice", "(", "Bob"]).1
        (prepare_search_terms ["Alice", "(", "Bob"]).2 "N/A" [some "Bob"] =
      ([], true) :=
  ⟨(c8_scan_time_failure (fun t => t == "(") ["Alice", "(", "Bob"]
      (prepare_search_terms ["Alice", "(", "Bob"]).1
      (prepare_search_terms ["Alice", "(", "Bob"]).2 "N/A" "Bob" [] [] [] []
      ⟨none, none⟩).1,
   (c8_scan_time_failure (fun t => t == "(") ["Alice", "(", "Bob"]
      (prepare_search_terms ["Alice", "(", "Bob"]).1
      (prepare_search_terms ["Alice", "(", "Bob"]).2 "N/A" "Bob" [] [] [] []
      ⟨none, none⟩).2.1 (by decide)⟩

/-- C10: when a workbook's extracted part number is the literal "Not Found"
— for example from a sixth-row cell "Status: Not Found" — every record the
scanner emits for that workbook carries that string, so the filter feeding
the found-match count and both summary sheets drops them all; yet those
records still mark their names as found, so no sentinel record is appended
for them. -/
theorem c10_not_found_part_collision (bad : String → Bool) (wb : Workbook)
    (ts : List Pattern) (m : List (Pattern × String)) (names : List String)
    (pre post : List Workbook) (r : Record)
    (hpart : extract_part_number wb = "Not Found")
    (hr : r ∈ search_single_excel_file bad wb ts m) :
    r.part_number = "Not Found" ∧
    found_filter (search_single_excel_file bad wb ts m) = [] ∧
    ¬ r.searched_name ∈ not_found_names names
        ((matched_records bad ts m (pre ++ wb :: post)).map
          (fun x => x.searched_name)) ∧
    extract_part_number
        ⟨some [[], [], [], [], [], [some "Status: Not Found"]], none⟩ =
      "Not Found" := by
  have hall : ∀ x ∈ search_single_excel_file bad wb ts m,
      x.part_number = "Not Found" := by
    intro x hx
    rw [search_single_part bad wb ts m x hx]
    exact hpart
  refine ⟨hall r hr, ?_, ?_, by decide⟩
  · rw [found_filter, List.filter_eq_nil_iff]
    intro a ha
    simp [hall a ha]
  · have hr2 : r ∈ matched_records bad ts m (pre ++ wb :: post) :=
      List.mem_flatMap.mpr
        ⟨wb, List.mem_append.mpr (Or.inr (List.mem_cons_self _ _)), hr⟩
    exact matched_not_in_sentinels bad ts m names (pre ++ wb :: post) r hr2

theorem c10_not_found_part_collision_witness :
    (⟨"Alice", "Not Found", "Alice", "Alice"⟩ : Record).part_number =
      "Not Found" ∧
    found_filter (search_single_excel_file (fun _ => false)
        ⟨some [[some "H"], [some "Alice"], [], [], [],
            [some "Status: Not Found"]],
          some [[[some "Alice"], [], [], [], [some "Status: Not Found"]]]⟩
        (prepare_search_terms ["Alice"]).1
        (prepare_search_terms ["Alice"]).2) = [] :=
  ⟨(c10_not_found_part_collision (fun _ => false)
      ⟨some [[some "H"], [some "Alice"], [], [], [],
          [some "Status: Not Found"]],
        some [[[some "Alice"], [], [], [], [some "Status: Not Found"]]]⟩
      (prepare_search_terms ["Alice"]).1 (prepare_search_terms ["Alice"]).2
      ["Alice"] [] [] ⟨"Alice", "Not Found", "Alice", "Alice"⟩
      (by decide) (by decide)).1,
   (c10_not_found_part_collision (fun _ => false)
      ⟨some [[some "H"], [some "Alice"], [], [], [],
          [some "Status: Not Found"]],
        some [[[some "Alice"], [], [], [], [some "Status: Not Found"]]]⟩
      (prepare_search_terms ["Alice"]).1 (prepare_search_terms ["Alice"]).2
      ["Alice"] [] [] ⟨"Alice", "Not Found", "Alice", "Alice"⟩
      (by decide) (by decide)).2.1⟩

end NameSearch
